import Mathlib

/-!
# migrate-archived-github-repos: a shallow embedding of `main.go`

The program lists the archived repositories of a source organisation
(`listArchivedRepos`), asks the platform to transfer each one to a target
organisation (`transferRepos`) and writes the original URLs to a results file
(`writeResultsToFile`).

Everything outside the program (process environment, the two REST calls of the
go-github client, the file system) is an explicit `Env` of scripted replies;
everything the program does to the outside is recorded in a `World`
(the files, and the trace of calls it issued, in order).  A reply is scripted by
the number of the call: the program is sequential and deterministic, so the
sequence of replies fixes the run.

Go pointers (`*string`, `*bool`, `*github.Repository`, `*config`,
`*github.Response`) are `Option`s, and dereferencing `nil` is the outcome
`panicked`.  Logging to standard error (`log.Printf`, `flag.Usage`) is left out of
the trace; `log.Fatal` is the exit `Exit.fatal`.
-/

namespace Migrate

/-! ## The embedding of `main.go` -/

/-- The three fields of `github.Repository` that the program reads; each is a
pointer in go-github. -/
structure Repository where
  Name : Option String
  Archived : Option Bool
  HTMLURL : Option String
deriving DecidableEq, Repr

/-- The method `(*Repository).GetArchived` of go-github: false on a nil receiver and on a nil
field. -/
def GetArchived : Option Repository → Bool
  | none => false
  | some r =>
    match r.Archived with
    | none => false
    | some b => b

/-- The type `config` of `main.go`; the client handle is the token it was built with. -/
structure config where
  ghClient : String
  sourceGithubOrg : String
  targetGithubOrg : String
deriving DecidableEq, Repr

/-- The type `result` of `main.go`. -/
structure result where
  originalRepoURL : String
deriving DecidableEq, Repr

/-- The type `github.TransferRequest`. -/
structure TransferRequest where
  NewName : Option String
  NewOwner : String
  TeamID : List Int
deriving DecidableEq, Repr

/-- The errors the program builds with `fmt.Errorf` (and the one `log.Fatalf` of `main`), with
the arguments of the format string. -/
inductive Error where
  | flagsMissing
  | authNotSet
  | listing (org : String) (cause : String)
  | migrating (repoName source target : String) (cause : String) (statusCode : Int)
  | creating (path : String) (cause : String)
  | writing (path : String) (cause : String)
deriving DecidableEq, Repr

/-- What `Repositories.ListByOrg` hands back: an error, or a page of repositories with the
`NextPage` of the response. -/
inductive ListReply where
  | ok (repos : List (Option Repository)) (NextPage : Int)
  | err (cause : String)
deriving DecidableEq, Repr

/-- What `Repositories.Transfer` hands back, as far as the program looks at it: the response
(its status code), which may be nil, and the error, which may be nil. -/
structure TransferReply where
  resp : Option Int
  err : Option String
deriving DecidableEq, Repr

/-- A call the program issues to the outside. -/
inductive Event where
  | listByOrg (org : String) (page : Int) (perPage : Int)
  | transfer (owner : String) (repo : String) (req : TransferRequest)
  | create (path : String)
  | writeString (path : String) (s : String)
  | close (path : String)
deriving DecidableEq, Repr

/-- The outside world as the program meets it. `listByOrg k` and `transfer k` answer the
call number `k` (from 0) of that kind; `createErr p` is the error of `os.Create p`, if
any; `writeErr k` says whether write number `k` fails, and then after how many characters. -/
structure Env where
  environ : String → Option String
  listByOrg : Nat → ListReply
  transfer : Nat → TransferReply
  createErr : String → Option String
  writeErr : Nat → Option (Nat × String)

/-- The state the program changes: file contents, the trace of calls issued so far, and how many
calls of each kind were made. -/
structure World where
  files : String → Option String
  trace : List Event
  listCalls : Nat
  transferCalls : Nat
  writeCalls : Nat

/-- A Go call either returns or dies on a nil pointer dereference. -/
inductive Outcome (α : Type) where
  | returned (a : α)
  | panicked
deriving DecidableEq, Repr

/-- How the process ends: `main` returns, `log.Fatal` exits with status 1, or a run-time
panic. -/
inductive Exit where
  | ok
  | fatal (e : Error)
  | panic
deriving DecidableEq, Repr

/-- The call `os.Getenv`: the empty string when the variable is unset. -/
def Getenv (env : Env) (key : String) : String :=
  match env.environ key with
  | some v => v
  | none => ""

/-- One `c.ghClient.Repositories.ListByOrg(ctx, org, opt)`. -/
def ListByOrg (env : Env) (org : String) (page perPage : Int) (w : World) : ListReply × World :=
  (env.listByOrg w.listCalls,
   { w with trace := w.trace ++ [Event.listByOrg org page perPage],
            listCalls := w.listCalls + 1 })

/-- One `c.ghClient.Repositories.Transfer(ctx, owner, repo, req)`. -/
def Transfer (env : Env) (owner repo : String) (req : TransferRequest) (w : World) :
    TransferReply × World :=
  (env.transfer w.transferCalls,
   { w with trace := w.trace ++ [Event.transfer owner repo req],
            transferCalls := w.transferCalls + 1 })

/-- The call `os.Create`: on success the file exists and is empty. -/
def osCreate (env : Env) (path : String) (w : World) : Option String × World :=
  match env.createErr path with
  | some e => (some e, { w with trace := w.trace ++ [Event.create path] })
  | none =>
    (none, { w with files := fun p => if p = path then some "" else w.files p,
                    trace := w.trace ++ [Event.create path] })

/-- Content of a file seen as a string (a missing file reads as empty). -/
def contentOf (w : World) (path : String) : String :=
  match w.files path with
  | some s => s
  | none => ""

/-- The call `f.WriteString(s)`: appends `s`, or on failure only its first characters. -/
def WriteString (env : Env) (path : String) (s : String) (w : World) : Option String × World :=
  match env.writeErr w.writeCalls with
  | none =>
    (none, { w with files := fun p => if p = path then some (contentOf w path ++ s) else w.files p,
                    trace := w.trace ++ [Event.writeString path s],
                    writeCalls := w.writeCalls + 1 })
  | some (n, e) =>
    (some e, { w with files := fun p =>
                        if p = path then some (contentOf w path ++ s.take n) else w.files p,
                      trace := w.trace ++ [Event.writeString path s],
                      writeCalls := w.writeCalls + 1 })

/-- The call `f.Close()`; its error is only logged. -/
def Close (path : String) (w : World) : World :=
  { w with trace := w.trace ++ [Event.close path] }

/-- The function `newConfig`. -/
def newConfig (env : Env) (sourceOrg targetOrg : String) : Option config × Option Error :=
  let auth := Getenv env "GITHUB_AUTH"
  if auth = "" then
    (none, some Error.authNotSet)
  else
    (some { ghClient := auth, sourceGithubOrg := sourceOrg, targetGithubOrg := targetOrg }, none)

/-- The inner `for _, repo := range repos` of `listArchivedRepos`. -/
def appendArchived (archivedRepos : List (Option Repository)) (repos : List (Option Repository)) :
    List (Option Repository) :=
  repos.foldl (fun acc repo => if GetArchived repo then acc ++ [repo] else acc) archivedRepos

/-- The `for` loop of `listArchivedRepos`, one iteration per unit of fuel; `page` is `opt.Page`.
`none` means the fuel ran out before the loop ended. -/
def listLoop (env : Env) (c : config) :
    Nat → Int → List (Option Repository) → World →
      Option ((Option (List (Option Repository)) × Option Error) × World)
  | 0, _, _, _ => none
  | fuel + 1, page, archivedRepos, w =>
    match ListByOrg env c.sourceGithubOrg page 100 w with
    | (ListReply.err cause, w1) =>
      some ((none, some (Error.listing c.sourceGithubOrg cause)), w1)
    | (ListReply.ok repos NextPage, w1) =>
      let archivedRepos1 := appendArchived archivedRepos repos
      if NextPage = 0 then
        some ((some archivedRepos1, none), w1)
      else
        listLoop env c fuel NextPage archivedRepos1 w1

/-- The function `listArchivedRepos`. -/
def listArchivedRepos (env : Env) (c : config) (fuel : Nat) (w : World) :
    Option ((Option (List (Option Repository)) × Option Error) × World) :=
  listLoop env c fuel 0 [] w

/-- The test `err != nil && resp != nil && resp.StatusCode != http.StatusAccepted` of
`transferRepos`; when it holds, the error and the status code that go into the message. -/
def transferFailed (reply : TransferReply) : Option (String × Int) :=
  match reply.err, reply.resp with
  | some cause, some statusCode => if statusCode ≠ 202 then some (cause, statusCode) else none
  | _, _ => none

/-- The `for _, repo := range repos` loop of `transferRepos`, with `r` the outcomes so far. -/
def transferLoop (env : Env) (c : config) :
    List (Option Repository) → List result → World →
      Outcome (List result × Option Error) × World
  | [], r, w => (Outcome.returned (r, none), w)
  | repo :: rest, r, w =>
    match repo with
    | none => (Outcome.panicked, w)
    | some d =>
      match d.Name with
      | none => (Outcome.panicked, w)
      | some repoName =>
        match Transfer env c.sourceGithubOrg repoName
            { NewName := some repoName, NewOwner := c.targetGithubOrg, TeamID := [] } w with
        | (reply, w1) =>
          match transferFailed reply with
          | some (cause, statusCode) =>
            (Outcome.returned (r, some (Error.migrating repoName c.sourceGithubOrg
              c.targetGithubOrg cause statusCode)), w1)
          | none =>
            match d.HTMLURL with
            | none => (Outcome.panicked, w1)
            | some url => transferLoop env c rest (r ++ [{ originalRepoURL := url }]) w1

/-- The function `transferRepos`. -/
def transferRepos (env : Env) (c : config) (repos : List (Option Repository)) (w : World) :
    Outcome (List result × Option Error) × World :=
  transferLoop env c repos [] w

/-- The `for _, result := range results` loop of `writeResultsToFile`. -/
def writeLoop (env : Env) (path : String) : List result → World → Option Error × World
  | [], w => (none, w)
  | res :: rest, w =>
    match WriteString env path (res.originalRepoURL ++ "\n") w with
    | (some cause, w1) => (some (Error.writing path cause), w1)
    | (none, w1) => writeLoop env path rest w1

/-- The function `writeResultsToFile`; the deferred `f.Close()` runs on every return after a
successful `os.Create`. -/
def writeResultsToFile (env : Env) (path : String) (results : List result) (w : World) :
    Option Error × World :=
  match osCreate env path w with
  | (some cause, w1) => (some (Error.creating path cause), w1)
  | (none, w1) =>
    match writeLoop env path results w1 with
    | (err, w2) => (err, Close path w2)

/-- A Go slice as the list a `range` goes over: a nil slice has no elements. -/
def sliceOf {α : Type} : Option (List α) → List α
  | none => []
  | some xs => xs

/-- The function `main`, from the point where `flag.Parse` has returned the three flag values. -/
def main (env : Env) (source target resultsFile : String) (fuel : Nat) (w : World) :
    Option (Exit × World) :=
  if source = "" ∨ target = "" then
    some (Exit.fatal Error.flagsMissing, w)
  else
    match newConfig env source target with
    | (_, some err) => some (Exit.fatal err, w)
    | (none, none) => some (Exit.panic, w)
    | (some conf, none) =>
      match listArchivedRepos env conf fuel w with
      | none => none
      | some ((_, some err), w1) => some (Exit.fatal err, w1)
      | some ((archivedRepos, none), w1) =>
        match transferRepos env conf (sliceOf archivedRepos) w1 with
        | (Outcome.panicked, w2) => some (Exit.panic, w2)
        | (Outcome.returned (_, some err), w2) => some (Exit.fatal err, w2)
        | (Outcome.returned (migratedRepos, none), w2) =>
          match writeResultsToFile env resultsFile migratedRepos w2 with
          | (some err, w3) => some (Exit.fatal err, w3)
          | (none, w3) => some (Exit.ok, w3)

/-- The requests `listArchivedRepos` sends when it starts at page `page` and is then told the
next pages `nexts`. -/
def listRequests (org : String) (page : Int) (nexts : List Int) : List Event :=
  (page :: nexts).map (fun p => Event.listByOrg org p 100)

/-- The name `*repo.Name` reads, when the dereference does not fail. -/
def repoName (repo : Option Repository) : Option String :=
  match repo with
  | none => none
  | some d => d.Name

/-- The URL `*repo.HTMLURL` reads, when the dereference does not fail. -/
def repoURL (repo : Option Repository) : Option String :=
  match repo with
  | none => none
  | some d => d.HTMLURL

/-- The one request `transferRepos` issues for a repository named `repoName`. -/
def transferEvent (c : config) (repoName : String) : Event :=
  Event.transfer c.sourceGithubOrg repoName
    { NewName := some repoName, NewOwner := c.targetGithubOrg, TeamID := [] }

/-- Whether an event is a transfer request. -/
def Event.isTransfer : Event → Bool
  | Event.transfer _ _ _ => true
  | _ => false

/-- Whether an event is a file operation. -/
def Event.isFileOp : Event → Bool
  | Event.create _ => true
  | Event.writeString _ _ => true
  | Event.close _ => true
  | _ => false

/-- The text the results file is said to hold: each URL followed by a newline, in order. -/
def expectedContent : List result → String
  | [] => ""
  | res :: rest => res.originalRepoURL ++ "\n" ++ expectedContent rest

/-- The write requests for a list of outcomes. -/
def writeEvents (path : String) (results : List result) : List Event :=
  results.map (fun res => Event.writeString path (res.originalRepoURL ++ "\n"))

/-! ## Concrete environments and inputs -/

/-- Two pages of an organisation: three repositories, then two, three of the five archived. -/
def twoPages : List (List (Option Repository) × Int) :=
  [([some ⟨some "a", some true, some "https://github.com/old/a"⟩,
     some ⟨some "b", some false, some "https://github.com/old/b"⟩,
     some ⟨some "c", some true, some "https://github.com/old/c"⟩], 2),
   ([some ⟨some "d", none, some "https://github.com/old/d"⟩,
     some ⟨some "e", some true, some "https://github.com/old/e"⟩], 0)]

/-- An environment with the token set that serves `twoPages`, accepts every transfer with a
202 and lets every file operation succeed. -/
def envTwoPages : Env :=
  { environ := fun k => if k = "GITHUB_AUTH" then some "token" else none
    listByOrg := fun k =>
      match twoPages[k]? with
      | some p => ListReply.ok p.1 p.2
      | none => ListReply.err "unexpected call"
    transfer := fun _ => { resp := some 202, err := some "job scheduled on GitHub side" }
    createErr := fun _ => none
    writeErr := fun _ => none }

/-- A fresh world: no file, nothing issued. -/
def emptyWorld : World :=
  { files := fun _ => none, trace := [], listCalls := 0, transferCalls := 0, writeCalls := 0 }

/-- The configuration of the examples: archived repositories move from `old` to `attic`. -/
def cfg : config := { ghClient := "token", sourceGithubOrg := "old", targetGithubOrg := "attic" }

/-- The three archived repositories of `twoPages`. -/
def threeArchived : List (Option Repository) :=
  [some ⟨some "a", some true, some "https://github.com/old/a"⟩,
   some ⟨some "c", some true, some "https://github.com/old/c"⟩,
   some ⟨some "e", some true, some "https://github.com/old/e"⟩]

/-- An environment whose first transfer succeeds outright, whose second is accepted with a 202
and whose third is refused with a 403. -/
def envThirdRefused : Env :=
  { environ := fun k => if k = "GITHUB_AUTH" then some "token" else none
    listByOrg := fun k =>
      match twoPages[k]? with
      | some p => ListReply.ok p.1 p.2
      | none => ListReply.err "unexpected call"
    transfer := fun k =>
      if k = 0 then { resp := some 200, err := none }
      else if k = 1 then { resp := some 202, err := some "job scheduled on GitHub side" }
      else { resp := some 403, err := some "403 Forbidden" }
    createErr := fun _ => none
    writeErr := fun _ => none }

/-- An environment with one archived repository whose transfer calls all fail without any
response (the request never reached the platform). -/
def envNoResponse : Env :=
  { environ := fun k => if k = "GITHUB_AUTH" then some "token" else none
    listByOrg := fun _ =>
      ListReply.ok [some ⟨some "a", some true, some "https://github.com/old/a"⟩] 0
    transfer := fun _ => { resp := none, err := some "dial tcp: i/o timeout" }
    createErr := fun _ => none
    writeErr := fun _ => none }

/-- A world in which the results file already exists, with text from an earlier run. -/
def worldWithOldFile : World :=
  { files := fun p => if p = "migrated-repo-results.txt" then some "stale line\n" else none,
    trace := [], listCalls := 0, transferCalls := 0, writeCalls := 0 }

/-- The outcomes for `threeArchived`. -/
def threeResults : List result :=
  [{ originalRepoURL := "https://github.com/old/a" },
   { originalRepoURL := "https://github.com/old/c" },
   { originalRepoURL := "https://github.com/old/e" }]

/-- An environment whose second page fetch fails, after a first page with archived
repositories. -/
def envSecondPageFails : Env :=
  { environ := fun k => if k = "GITHUB_AUTH" then some "token" else none
    listByOrg := fun k =>
      if k = 0 then
        ListReply.ok [some ⟨some "a", some true, some "https://github.com/old/a"⟩] 2
      else ListReply.err "502 Bad Gateway"
    transfer := fun _ => { resp := some 202, err := some "job scheduled on GitHub side" }
    createErr := fun _ => none
    writeErr := fun _ => none }

/-- An environment in which `GITHUB_AUTH` is not set. -/
def envNoAuth : Env :=
  { environ := fun _ => none
    listByOrg := fun _ => ListReply.ok [] 0
    transfer := fun _ => { resp := some 202, err := some "job scheduled on GitHub side" }
    createErr := fun _ => none
    writeErr := fun _ => none }

/-- An environment with an empty organisation in which the results file cannot be created. -/
def envCreateFails : Env :=
  { environ := fun k => if k = "GITHUB_AUTH" then some "token" else none
    listByOrg := fun _ => ListReply.ok [] 0
    transfer := fun _ => { resp := some 202, err := some "job scheduled on GitHub side" }
    createErr := fun _ => some "open migrated-repo-results.txt: permission denied"
    writeErr := fun _ => none }

/-- An environment with an organisation of two pages without any archived repository. -/
def envNothingArchived : Env :=
  { environ := fun k => if k = "GITHUB_AUTH" then some "token" else none
    listByOrg := fun k =>
      if k = 0 then
        ListReply.ok [some ⟨some "b", some false, some "https://github.com/old/b"⟩,
          some ⟨some "d", none, some "https://github.com/old/d"⟩] 2
      else ListReply.ok [none] 0
    transfer := fun _ => { resp := some 500, err := some "500 Internal Server Error" }
    createErr := fun _ => none
    writeErr := fun _ => none }

/-- The world after `main` has listed `twoPages` starting from `worldWithOldFile`. -/
def worldAfterListing : World :=
  { worldWithOldFile with
    trace := [Event.listByOrg "old" 0 100, Event.listByOrg "old" 2 100]
    listCalls := 2 }

/-- The world after the three transfer requests that follow. -/
def worldAfterRefusal : World :=
  { worldAfterListing with
    trace := [Event.listByOrg "old" 0 100, Event.listByOrg "old" 2 100,
      Event.transfer "old" "a" { NewName := some "a", NewOwner := "attic", TeamID := [] },
      Event.transfer "old" "c" { NewName := some "c", NewOwner := "attic", TeamID := [] },
      Event.transfer "old" "e" { NewName := some "e", NewOwner := "attic", TeamID := [] }]
    transferCalls := 3 }

/-! ## Lemmas about the loops -/

theorem appendArchived_eq (repos acc : List (Option Repository)) :
    appendArchived acc repos = acc ++ repos.filter GetArchived := by
  unfold appendArchived
  induction repos generalizing acc with
  | nil => simp
  | cons r rest ih =>
    simp only [List.foldl_cons, List.filter_cons]
    rw [ih]
    by_cases h : GetArchived r <;> simp [h]

theorem listLoop_pages (env : Env) (c : config)
    (init : List (List (Option Repository) × Int)) (lastRepos : List (Option Repository)) :
    ∀ (fuel : Nat) (page : Int) (acc : List (Option Repository)) (w : World),
      (∀ p ∈ init, p.2 ≠ 0) →
      (∀ i p, (init ++ [(lastRepos, 0)])[i]? = some p →
        env.listByOrg (w.listCalls + i) = ListReply.ok p.1 p.2) →
      init.length + 1 ≤ fuel →
      listLoop env c fuel page acc w =
        some ((some (acc ++ (((init ++ [(lastRepos, 0)]).map Prod.fst).flatten.filter GetArchived)),
                none),
              { w with trace := w.trace ++ listRequests c.sourceGithubOrg page (init.map Prod.snd),
                       listCalls := w.listCalls + (init.length + 1) }) := by
  induction init with
  | nil =>
    intro fuel page acc w _ hs hf
    obtain ⟨f, rfl⟩ : ∃ f, fuel = f + 1 := ⟨fuel - 1, by simp at hf; omega⟩
    have h0 := hs 0 (lastRepos, 0) (by simp)
    simp only [Nat.add_zero] at h0
    simp [listLoop, ListByOrg, h0, appendArchived_eq, listRequests]
  | cons pg rest ih =>
    intro fuel page acc w hn hs hf
    obtain ⟨f, rfl⟩ : ∃ f, fuel = f + 1 := ⟨fuel - 1, by simp at hf; omega⟩
    have h0 := hs 0 pg (by simp)
    simp only [Nat.add_zero] at h0
    have hpg : pg.2 ≠ 0 := hn pg (by simp)
    have hrest := ih f pg.2 (acc ++ pg.1.filter GetArchived)
      { w with trace := w.trace ++ [Event.listByOrg c.sourceGithubOrg page 100],
               listCalls := w.listCalls + 1 }
      (fun p hp => hn p (by simp [hp]))
      (fun i p hi => by
        have := hs (i + 1) p (by simpa using hi)
        simpa [Nat.add_assoc, Nat.add_comm 1 i] using this)
      (by simp at hf; omega)
    simp only [listLoop, ListByOrg, h0, hpg, if_false, appendArchived_eq]
    rw [hrest]
    simp [listRequests, Nat.add_assoc, Nat.add_comm 1]

theorem transferFailed_accepted (reply : TransferReply)
    (h : reply.err = none ∨ reply.resp = some 202) : transferFailed reply = none := by
  obtain ⟨resp, err⟩ := reply
  cases err <;> cases resp <;> simp_all [transferFailed]

theorem transferFailed_rejected (reply : TransferReply) (cause : String) (statusCode : Int)
    (he : reply.err = some cause) (hr : reply.resp = some statusCode) (hs : statusCode ≠ 202) :
    transferFailed reply = some (cause, statusCode) := by
  obtain ⟨resp, err⟩ := reply
  simp_all [transferFailed]

theorem map_eq_map_some_filterMap {α β : Type} (f : α → Option β) (l : List α)
    (h : ∀ x ∈ l, (f x).isSome) : l.map f = (l.filterMap f).map some := by
  induction l with
  | nil => rfl
  | cons x rest ih =>
    have hx := h x (by simp)
    obtain ⟨y, hy⟩ := Option.isSome_iff_exists.mp hx
    have := ih (fun z hz => h z (by simp [hz]))
    simp [List.filterMap_cons, hy, this]

/-- While no call fails the test of `transferRepos`, the loop walks through repositories that
carry a name and a URL, one request and one outcome each. -/
theorem transferLoop_stretch (env : Env) (c : config) (pre rest : List (Option Repository)) :
    ∀ (r : List result) (w : World),
      (∀ x ∈ pre, (repoName x).isSome) → (∀ x ∈ pre, (repoURL x).isSome) →
      (∀ i, i < pre.length → transferFailed (env.transfer (w.transferCalls + i)) = none) →
      transferLoop env c (pre ++ rest) r w =
        transferLoop env c rest (r ++ (pre.filterMap repoURL).map result.mk)
          { w with trace := w.trace ++ (pre.filterMap repoName).map (transferEvent c),
                   transferCalls := w.transferCalls + pre.length } := by
  induction pre with
  | nil => intro r w _ _ _; simp
  | cons x pre ih =>
    intro r w hn hu hok
    have hxn := hn x (by simp)
    have hxu := hu x (by simp)
    obtain ⟨n, hn1⟩ := Option.isSome_iff_exists.mp hxn
    obtain ⟨u, hu1⟩ := Option.isSome_iff_exists.mp hxu
    cases x with
    | none => simp [repoName] at hn1
    | some d =>
      simp only [repoName] at hn1
      simp only [repoURL] at hu1
      have h0 := hok 0 (by simp)
      simp only [Nat.add_zero] at h0
      have hrest := ih (r ++ [{ originalRepoURL := u }])
        { w with trace := w.trace ++ [transferEvent c n], transferCalls := w.transferCalls + 1 }
        (fun z hz => hn z (by simp [hz])) (fun z hz => hu z (by simp [hz]))
        (fun i hi => by
          have := hok (i + 1) (by simpa using hi)
          simpa [Nat.add_assoc, Nat.add_comm 1 i] using this)
      simp only [List.cons_append, transferLoop, hn1, Transfer, h0, hu1, List.append_eq]
      rw [show (Event.transfer c.sourceGithubOrg n
          { NewName := some n, NewOwner := c.targetGithubOrg, TeamID := [] }) = transferEvent c n
        from rfl, hrest]
      simp [List.filterMap_cons, repoName, repoURL, hn1, hu1, Nat.add_assoc, Nat.add_comm 1]

/-- Whatever the replies, the requests of the loop are those of an initial stretch of the
input, one per repository, each built from the name of that repository; the files are not
touched. -/
theorem transferLoop_trace (env : Env) (c : config) (repos : List (Option Repository)) :
    ∀ (r : List result) (w : World),
      ∃ k, k ≤ repos.length ∧ (∀ x ∈ repos.take k, (repoName x).isSome) ∧
        (transferLoop env c repos r w).2.trace =
          w.trace ++ ((repos.take k).filterMap repoName).map (transferEvent c) ∧
        (transferLoop env c repos r w).2.transferCalls = w.transferCalls + k ∧
        (transferLoop env c repos r w).2.files = w.files ∧
        (transferLoop env c repos r w).2.listCalls = w.listCalls ∧
        (transferLoop env c repos r w).2.writeCalls = w.writeCalls := by
  induction repos with
  | nil => intro r w; exact ⟨0, by simp [transferLoop]⟩
  | cons x rest ih =>
    intro r w
    cases x with
    | none => exact ⟨0, by simp [transferLoop]⟩
    | some d =>
      cases hn : d.Name with
      | none => exact ⟨0, by simp [transferLoop, hn]⟩
      | some n =>
        cases hf : transferFailed (env.transfer w.transferCalls) with
        | some p =>
          refine ⟨1, by simp, ?_⟩
          simp [transferLoop, hn, Transfer, hf, repoName, transferEvent]
        | none =>
          cases hu : d.HTMLURL with
          | none =>
            refine ⟨1, by simp, ?_⟩
            simp [transferLoop, hn, Transfer, hf, hu, repoName, transferEvent]
          | some u =>
            obtain ⟨k, hk, hnames, htr, hcalls, hfiles, hl, hw⟩ :=
              ih (r ++ [{ originalRepoURL := u }])
                { w with trace := w.trace ++ [transferEvent c n],
                         transferCalls := w.transferCalls + 1 }
            refine ⟨k + 1, by simpa using hk, ?_, ?_, ?_, ?_, ?_, ?_⟩
            · intro z hz
              simp only [List.take_succ_cons, List.mem_cons] at hz
              rcases hz with rfl | hz
              · simp [repoName, hn]
              · exact hnames z hz
            all_goals
              simp only [transferLoop, hn, Transfer, hf, hu]
              rw [show (Event.transfer c.sourceGithubOrg n
                { NewName := some n, NewOwner := c.targetGithubOrg, TeamID := [] }) =
                  transferEvent c n from rfl]
            · rw [htr]; simp [repoName, hn]
            · rw [hcalls]; simp [Nat.add_assoc, Nat.add_comm 1]
            · rw [hfiles]
            · rw [hl]
            · rw [hw]

/-- A non-empty sequence of pages whose `NextPage` is 0 on the last page and only there is
its pages before the last, none with `NextPage = 0`, followed by the last with `NextPage = 0`. -/
theorem pages_split (pages : List (List (Option Repository) × Int)) (hne : pages ≠ [])
    (hnext : ∀ i (h : i < pages.length), (pages[i].2 = 0 ↔ i + 1 = pages.length)) :
    pages = pages.dropLast ++ [((pages.getLast hne).1, 0)] ∧
      (∀ p ∈ pages.dropLast, p.2 ≠ 0) ∧ pages.dropLast.length + 1 = pages.length := by
  have hsplit : pages.dropLast ++ [pages.getLast hne] = pages := List.dropLast_append_getLast hne
  have hlen : pages.dropLast.length + 1 = pages.length := by
    have := congrArg List.length hsplit
    simpa using this
  have hlast : (pages.getLast hne).2 = 0 := by
    have hlt : pages.length - 1 < pages.length := by omega
    have h1 := (hnext (pages.length - 1) hlt).2 (by omega)
    rw [List.getLast_eq_getElem]
    exact h1
  refine ⟨?_, ?_, hlen⟩
  · conv_lhs => rw [← hsplit]
    congr 2
    exact Prod.ext rfl hlast
  · intro p hp h0
    obtain ⟨i, hi, rfl⟩ := List.getElem_of_mem hp
    have hi2 : i < pages.length := by omega
    have heq : pages.dropLast[i] = pages[i] := by
      simp [List.getElem_dropLast]
    rw [heq] at h0
    have := (hnext i hi2).1 h0
    omega

theorem writeLoop_ok (env : Env) (path : String) (results : List result) :
    ∀ (w : World) (text : String), w.files path = some text →
      (∀ k, k < results.length → env.writeErr (w.writeCalls + k) = none) →
      writeLoop env path results w =
        (none, { w with files := fun p =>
                          if p = path then some (text ++ expectedContent results) else w.files p,
                        trace := w.trace ++ writeEvents path results,
                        writeCalls := w.writeCalls + results.length }) := by
  induction results with
  | nil =>
    intro w text hfile _
    have hf : (fun p => if p = path then some (text ++ expectedContent []) else w.files p) =
        w.files := by
      funext p
      by_cases hp : p = path
      · subst hp; simp [expectedContent, hfile]
      · simp [hp]
    simp only [writeLoop, hf, writeEvents, List.map_nil, List.append_nil, List.length_nil,
      Nat.add_zero]
  | cons res rest ih =>
    intro w text hfile hw
    have h0 := hw 0 (by simp)
    simp only [Nat.add_zero] at h0
    have hrest := ih
      { w with files := fun p =>
                 if p = path then some (text ++ (res.originalRepoURL ++ "\n")) else w.files p,
               trace := w.trace ++ [Event.writeString path (res.originalRepoURL ++ "\n")],
               writeCalls := w.writeCalls + 1 }
      (text ++ (res.originalRepoURL ++ "\n")) (by simp)
      (fun k hk => by
        have := hw (k + 1) (by simpa using hk)
        simpa [Nat.add_assoc, Nat.add_comm 1 k] using this)
    simp only [writeLoop, WriteString, h0, contentOf, hfile]
    rw [hrest]
    have hf : (fun p => if p = path then
          some (text ++ (res.originalRepoURL ++ "\n") ++ expectedContent rest)
        else if p = path then some (text ++ (res.originalRepoURL ++ "\n")) else w.files p) =
        (fun p => if p = path then some (text ++ expectedContent (res :: rest))
          else w.files p) := by
      funext p
      by_cases hp : p = path
      · simp [hp, expectedContent, String.append_assoc]
      · simp [hp]
    simp [hf, writeEvents, Nat.add_assoc, Nat.add_comm 1]

/-- The lines of a text of newline-terminated URLs that hold no newline themselves: splitting
at the newlines gives back the URLs, and an empty rest after the last newline. -/
theorem expectedContent_lines (results : List result)
    (h : ∀ res ∈ results, ∀ ch ∈ res.originalRepoURL.data, ch ≠ '\n') :
    (expectedContent results).data.splitOnP (fun ch => ch == '\n') =
      results.map (fun res => res.originalRepoURL.data) ++ [[]] := by
  induction results with
  | nil => rfl
  | cons res rest ih =>
    have hres := h res (by simp)
    have hrest := ih (fun r hr => h r (by simp [hr]))
    have hdata : (expectedContent (res :: rest)).data =
        res.originalRepoURL.data ++ '\n' :: (expectedContent rest).data := by
      simp [expectedContent, String.data_append]
    rw [hdata, List.splitOnP_first (fun ch => ch == '\n') res.originalRepoURL.data
      (fun x hx => by simpa using hres x hx) '\n' (by simp), hrest]
    simp

/-- The listing when the fetch after the pages `pages` fails. -/
theorem listLoop_error (env : Env) (c : config)
    (pages : List (List (Option Repository) × Int)) (cause : String) :
    ∀ (fuel : Nat) (page : Int) (acc : List (Option Repository)) (w : World),
      (∀ p ∈ pages, p.2 ≠ 0) →
      (∀ i p, pages[i]? = some p → env.listByOrg (w.listCalls + i) = ListReply.ok p.1 p.2) →
      env.listByOrg (w.listCalls + pages.length) = ListReply.err cause →
      pages.length + 1 ≤ fuel →
      listLoop env c fuel page acc w =
        some ((none, some (Error.listing c.sourceGithubOrg cause)),
              { w with trace := w.trace ++ listRequests c.sourceGithubOrg page (pages.map Prod.snd),
                       listCalls := w.listCalls + (pages.length + 1) }) := by
  induction pages with
  | nil =>
    intro fuel page acc w _ _ he hf
    obtain ⟨f, rfl⟩ : ∃ f, fuel = f + 1 := ⟨fuel - 1, by simp at hf; omega⟩
    simp only [List.length_nil, Nat.add_zero] at he
    simp [listLoop, ListByOrg, he, listRequests]
  | cons pg rest ih =>
    intro fuel page acc w hn hs he hf
    obtain ⟨f, rfl⟩ : ∃ f, fuel = f + 1 := ⟨fuel - 1, by simp at hf; omega⟩
    have h0 := hs 0 pg (by simp)
    simp only [Nat.add_zero] at h0
    have hpg : pg.2 ≠ 0 := hn pg (by simp)
    have hrest := ih f pg.2 (appendArchived acc pg.1)
      { w with trace := w.trace ++ [Event.listByOrg c.sourceGithubOrg page 100],
               listCalls := w.listCalls + 1 }
      (fun p hp => hn p (by simp [hp]))
      (fun i p hi => by
        have := hs (i + 1) p (by simpa using hi)
        simpa [Nat.add_assoc, Nat.add_comm 1 i] using this)
      (by simpa [Nat.add_assoc, Nat.add_comm 1] using he)
      (by simp at hf; omega)
    simp only [listLoop, ListByOrg, h0, hpg, if_false]
    rw [hrest]
    simp [listRequests, Nat.add_assoc, Nat.add_comm 1]

/-- Whatever the replies, a listing that ends has only sent list requests: no file, no transfer
and no write is touched. -/
theorem listLoop_frame (env : Env) (c : config) :
    ∀ (fuel : Nat) (page : Int) (acc : List (Option Repository)) (w : World)
      (res : Option (List (Option Repository)) × Option Error) (w1 : World),
      listLoop env c fuel page acc w = some (res, w1) →
      w1.files = w.files ∧ w1.transferCalls = w.transferCalls ∧ w1.writeCalls = w.writeCalls ∧
        ∃ nexts, w1.trace = w.trace ++ listRequests c.sourceGithubOrg page nexts := by
  intro fuel
  induction fuel with
  | zero => intro page acc w res w1 h; simp [listLoop] at h
  | succ f ih =>
    intro page acc w res w1 h
    simp only [listLoop, ListByOrg] at h
    cases hr : env.listByOrg w.listCalls with
    | err cause =>
      rw [hr] at h
      simp only [Option.some.injEq, Prod.mk.injEq] at h
      obtain ⟨_, rfl⟩ := h
      exact ⟨rfl, rfl, rfl, [], by simp [listRequests]⟩
    | ok repos next =>
      rw [hr] at h
      by_cases hz : next = 0
      · simp only [hz, if_true, Option.some.injEq, Prod.mk.injEq] at h
        obtain ⟨_, rfl⟩ := h
        exact ⟨rfl, rfl, rfl, [], by simp [listRequests]⟩
      · simp only [hz, if_false] at h
        obtain ⟨h1, h2, h3, nexts, h4⟩ := ih _ _ _ _ _ h
        exact ⟨h1, h2, h3, next :: nexts, by rw [h4]; simp [listRequests]⟩

theorem listRequests_not_transfer (org : String) (page : Int) (nexts : List Int) :
    ∀ ev ∈ listRequests org page nexts, ev.isTransfer = false ∧ ev.isFileOp = false := by
  intro ev hev
  obtain ⟨q, _, rfl⟩ := List.mem_map.mp hev
  exact ⟨rfl, rfl⟩

theorem transferEvents_not_fileOp (c : config) (names : List String) :
    ∀ ev ∈ names.map (transferEvent c), ev.isFileOp = false := by
  intro ev hev
  obtain ⟨q, _, rfl⟩ := List.mem_map.mp hev
  rfl

/-- The call `newConfig` when the token is there. -/
theorem newConfig_ok (env : Env) (source target : String) (h : Getenv env "GITHUB_AUTH" ≠ "") :
    newConfig env source target =
      (some { ghClient := Getenv env "GITHUB_AUTH", sourceGithubOrg := source,
              targetGithubOrg := target }, none) := by
  simp [newConfig, h]

/-- The call `newConfig` when the token is missing. -/
theorem newConfig_missing (env : Env) (source target : String)
    (h : Getenv env "GITHUB_AUTH" = "") :
    newConfig env source target = (none, some Error.authNotSet) := by
  simp [newConfig, h]

/-! ## The properties of the specification -/

/-- C1. For every non-empty sequence of pages that the list-by-org call serves without
error, all but the last with `NextPage ≠ 0` and the last with `NextPage = 0`,
`listArchivedRepos` (given at least one unit of fuel per page) returns no error and exactly the
concatenation of the pages, in page order, filtered to the repositories whose archived flag is
true; it issues one request per page, the first for page 0 and each next one for the
`NextPage` it was told, and touches no file. -/
theorem listArchivedRepos_returns_all_archived (env : Env) (c : config) (w : World)
    (pages : List (List (Option Repository) × Int)) (fuel : Nat)
    (hne : pages ≠ [])
    (hnext : ∀ i (h : i < pages.length), (pages[i].2 = 0 ↔ i + 1 = pages.length))
    (hserved : ∀ i (h : i < pages.length),
      env.listByOrg (w.listCalls + i) = ListReply.ok pages[i].1 pages[i].2)
    (hfuel : pages.length ≤ fuel) :
    ∃ w1, listArchivedRepos env c fuel w =
        some ((some ((pages.map Prod.fst).flatten.filter GetArchived), none), w1) ∧
      w1.trace = w.trace ++ listRequests c.sourceGithubOrg 0 (pages.dropLast.map Prod.snd) ∧
      w1.listCalls = w.listCalls + pages.length ∧
      w1.transferCalls = w.transferCalls ∧
      w1.files = w.files := by
  obtain ⟨hpg, hinit, hlen⟩ := pages_split pages hne hnext
  have key := listLoop_pages env c pages.dropLast (pages.getLast hne).1 fuel 0 [] w hinit
    (by
      rw [← hpg]
      intro i p hi
      obtain ⟨hi1, hi2⟩ := List.getElem?_eq_some.mp hi
      rw [← hi2]
      exact hserved i hi1)
    (by omega)
  rw [← hpg, List.nil_append] at key
  exact ⟨_, key, rfl, by simp only [hlen], rfl, rfl⟩

/-- C1 at `twoPages`: the three archived repositories of the five come back, in order. -/
theorem listArchivedRepos_returns_all_archived_witness :
    ∃ w1, listArchivedRepos envTwoPages ⟨"token", "old", "attic"⟩ 2 emptyWorld =
        some ((some ((twoPages.map Prod.fst).flatten.filter GetArchived), none), w1) ∧
      w1.trace = emptyWorld.trace ++ listRequests "old" 0 (twoPages.dropLast.map Prod.snd) ∧
      w1.listCalls = emptyWorld.listCalls + twoPages.length ∧
      w1.transferCalls = emptyWorld.transferCalls ∧
      w1.files = emptyWorld.files :=
  listArchivedRepos_returns_all_archived envTwoPages ⟨"token", "old", "attic"⟩ emptyWorld
    twoPages 2 (by decide) (by decide) (by decide) (by decide)

/-- C2 (the code departs from it). The transfer call for the one repository fails with an
error and no response at all, and `transferRepos` still returns a nil error and records the URL
of that repository as an outcome; the whole program then returns normally with that URL in the
results file. -/
theorem transferRepos_records_call_without_response :
    (envNoResponse.transfer 0).err = some "dial tcp: i/o timeout" ∧
    (envNoResponse.transfer 0).resp = none ∧
    (transferRepos envNoResponse cfg
        [some ⟨some "a", some true, some "https://github.com/old/a"⟩] emptyWorld).1 =
      Outcome.returned ([{ originalRepoURL := "https://github.com/old/a" }], none) ∧
    (main envNoResponse "old" "attic" "migrated-repo-results.txt" 1 emptyWorld).map
        (fun x => (x.1, x.2.files "migrated-repo-results.txt")) =
      some (Exit.ok, some "https://github.com/old/a\n") := by
  refine ⟨rfl, rfl, ?_, ?_⟩
  · decide
  · decide

/-- C3. When the transfer calls for `repos[0..i)` each return no error or a 202 response and
the call for `repos[i]` returns an error with a response whose status is not 202, `transferRepos`
returns that error (non-nil) together with exactly the URLs of `repos[0..i)` in order, and the
requests it issued are those for `repos[0..i]` and no other: nothing after index `i` is
requested. (The repositories up to `i` carry a name, those before `i` a URL.) -/
theorem transferRepos_halts_on_rejection (env : Env) (c : config)
    (repos : List (Option Repository)) (w : World) (i : Nat) (cause : String) (statusCode : Int)
    (hi : i < repos.length)
    (hname : ∀ j x, repos[j]? = some x → j ≤ i → (repoName x).isSome)
    (hurl : ∀ j x, repos[j]? = some x → j < i → (repoURL x).isSome)
    (hacc : ∀ j, j < i → (env.transfer (w.transferCalls + j)).err = none ∨
      (env.transfer (w.transferCalls + j)).resp = some 202)
    (herr : (env.transfer (w.transferCalls + i)).err = some cause)
    (hresp : (env.transfer (w.transferCalls + i)).resp = some statusCode)
    (hcode : statusCode ≠ 202) :
    ∃ (out : List result) (names : List String) (nm : String) (w1 : World),
      transferRepos env c repos w =
        (Outcome.returned (out, some (Error.migrating nm c.sourceGithubOrg c.targetGithubOrg
          cause statusCode)), w1) ∧
      repoName repos[i] = some nm ∧
      (repos.take i).map repoURL = out.map (fun o => some o.originalRepoURL) ∧
      (repos.take (i + 1)).map repoName = names.map some ∧
      w1.trace = w.trace ++ names.map (fun X => Event.transfer c.sourceGithubOrg X
        { NewName := some X, NewOwner := c.targetGithubOrg, TeamID := [] }) ∧
      w1.transferCalls = w.transferCalls + (i + 1) := by
  have hsplit : repos = repos.take i ++ (repos[i] :: repos.drop (i + 1)) := by
    rw [List.getElem_cons_drop, List.take_append_drop]
  have hlen : (repos.take i).length = i := by simp; omega
  have hpn : ∀ x ∈ repos.take i, (repoName x).isSome := by
    intro x hx
    obtain ⟨j, hj, rfl⟩ := List.getElem_of_mem hx
    rw [hlen] at hj
    rw [List.getElem_take]
    exact hname j _ (List.getElem?_eq_getElem (by omega)) (by omega)
  have hpu : ∀ x ∈ repos.take i, (repoURL x).isSome := by
    intro x hx
    obtain ⟨j, hj, rfl⟩ := List.getElem_of_mem hx
    rw [hlen] at hj
    rw [List.getElem_take]
    exact hurl j _ (List.getElem?_eq_getElem (by omega)) hj
  have hpre := transferLoop_stretch env c (repos.take i) (repos[i] :: repos.drop (i + 1)) [] w
    hpn hpu (fun j hj => transferFailed_accepted _ (hacc j (by rw [hlen] at hj; exact hj)))
  rw [← hsplit, hlen] at hpre
  have hni := hname i repos[i] (List.getElem?_eq_getElem hi) (Nat.le_refl i)
  obtain ⟨nm, hnm⟩ := Option.isSome_iff_exists.mp hni
  have hfail := transferFailed_rejected _ cause statusCode herr hresp hcode
  refine ⟨(((repos.take i).filterMap repoURL).map result.mk),
    ((repos.take i).filterMap repoName) ++ [nm], nm,
    { w with
      trace := w.trace ++ (((repos.take i).filterMap repoName) ++ [nm]).map (transferEvent c)
      transferCalls := w.transferCalls + (i + 1) },
    ?_, hnm, ?_, ?_, rfl, rfl⟩
  · rw [transferRepos, hpre]
    cases hd : repos[i] with
    | none => rw [hd] at hnm; simp [repoName] at hnm
    | some d =>
      rw [hd] at hnm
      simp only [repoName] at hnm
      simp [transferLoop, hnm, Transfer, hfail, transferEvent, Nat.add_assoc]
  · rw [map_eq_map_some_filterMap repoURL _ hpu]
    simp [List.map_map, Function.comp_def]
  · rw [List.take_succ, List.getElem?_eq_getElem hi, List.map_append,
      map_eq_map_some_filterMap repoName _ hpn]
    simp [hnm]

/-- C3 at `threeArchived`: the third transfer is refused with a 403. -/
theorem transferRepos_halts_on_rejection_witness :
    ∃ (out : List result) (names : List String) (nm : String) (w1 : World),
      transferRepos envThirdRefused cfg (threeArchived ++ threeArchived) emptyWorld =
        (Outcome.returned (out, some (Error.migrating nm cfg.sourceGithubOrg
          cfg.targetGithubOrg "403 Forbidden" 403)), w1) ∧
      repoName ((threeArchived ++ threeArchived)[2]) = some nm ∧
      ((threeArchived ++ threeArchived).take 2).map repoURL =
        out.map (fun o => some o.originalRepoURL) ∧
      ((threeArchived ++ threeArchived).take (2 + 1)).map repoName = names.map some ∧
      w1.trace = emptyWorld.trace ++ names.map (fun X => Event.transfer cfg.sourceGithubOrg X
        { NewName := some X, NewOwner := cfg.targetGithubOrg, TeamID := [] }) ∧
      w1.transferCalls = emptyWorld.transferCalls + (2 + 1) :=
  transferRepos_halts_on_rejection envThirdRefused cfg (threeArchived ++ threeArchived)
    emptyWorld 2 "403 Forbidden" 403 (by decide)
    (by
      intro j x hx hj
      have hj3 : j = 0 ∨ j = 1 ∨ j = 2 := by omega
      rcases hj3 with rfl | rfl | rfl <;>
        (simp [threeArchived] at hx; subst hx; rfl))
    (by
      intro j x hx hj
      have hj2 : j = 0 ∨ j = 1 := by omega
      rcases hj2 with rfl | rfl <;>
        (simp [threeArchived] at hx; subst hx; rfl))
    (by decide) (by decide) (by decide) (by decide)

/-- C4. When every transfer call returns no error or a response with status 202 (the error
that comes with the 202 is not treated as one), `transferRepos` returns a nil error and as many
outcomes as repositories, the i-th being the HTML URL of the i-th repository, and the requests
issued are the names of the repositories in input order, one request each. (Every repository
carries a name and a URL.) -/
theorem transferRepos_accepts_202 (env : Env) (c : config) (repos : List (Option Repository))
    (w : World)
    (hwf : ∀ x ∈ repos, (repoName x).isSome ∧ (repoURL x).isSome)
    (hacc : ∀ i, i < repos.length → (env.transfer (w.transferCalls + i)).err = none ∨
      (env.transfer (w.transferCalls + i)).resp = some 202) :
    ∃ (out : List result) (names : List String) (w1 : World),
      transferRepos env c repos w = (Outcome.returned (out, none), w1) ∧
      out.length = repos.length ∧
      repos.map repoURL = out.map (fun o => some o.originalRepoURL) ∧
      repos.map repoName = names.map some ∧
      w1.trace = w.trace ++ names.map (fun X => Event.transfer c.sourceGithubOrg X
        { NewName := some X, NewOwner := c.targetGithubOrg, TeamID := [] }) ∧
      w1.transferCalls = w.transferCalls + repos.length := by
  have hpn : ∀ x ∈ repos, (repoName x).isSome := fun x hx => (hwf x hx).1
  have hpu : ∀ x ∈ repos, (repoURL x).isSome := fun x hx => (hwf x hx).2
  have hpre := transferLoop_stretch env c repos [] [] w hpn hpu
    (fun j hj => transferFailed_accepted _ (hacc j hj))
  rw [List.append_nil, List.nil_append] at hpre
  have hmap := map_eq_map_some_filterMap repoURL repos hpu
  refine ⟨(repos.filterMap repoURL).map result.mk, repos.filterMap repoName,
    { w with
      trace := w.trace ++ (repos.filterMap repoName).map (transferEvent c)
      transferCalls := w.transferCalls + repos.length },
    ?_, ?_, ?_, map_eq_map_some_filterMap repoName repos hpn, rfl, rfl⟩
  · rw [transferRepos, hpre]
    simp [transferLoop]
  · have := congrArg List.length hmap
    simpa using this.symm
  · rw [hmap]
    simp [List.map_map, Function.comp_def]

/-- C4 at `threeArchived`, every transfer answered with a 202 and its error. -/
theorem transferRepos_accepts_202_witness :
    ∃ (out : List result) (names : List String) (w1 : World),
      transferRepos envTwoPages cfg threeArchived emptyWorld =
        (Outcome.returned (out, none), w1) ∧
      out.length = threeArchived.length ∧
      threeArchived.map repoURL = out.map (fun o => some o.originalRepoURL) ∧
      threeArchived.map repoName = names.map some ∧
      w1.trace = emptyWorld.trace ++ names.map (fun X => Event.transfer cfg.sourceGithubOrg X
        { NewName := some X, NewOwner := cfg.targetGithubOrg, TeamID := [] }) ∧
      w1.transferCalls = emptyWorld.transferCalls + threeArchived.length :=
  transferRepos_accepts_202 envTwoPages cfg threeArchived emptyWorld (by decide) (by decide)

/-- C5. For every input and every behaviour of the transfer call, the requests `transferRepos`
issues are, in order, one for each repository of an initial stretch of the input (those it
processes), and the request for a repository named `X` addresses owner = the source
organisation and repository = `X` and carries `NewName = X` and `NewOwner` = the target
organisation; so no request carries a new name other than the current name of its
repository. -/
theorem transferRepos_preserves_name (env : Env) (c : config) (repos : List (Option Repository))
    (w : World) :
    (∃ (k : Nat) (names : List String), k ≤ repos.length ∧
      (repos.take k).map repoName = names.map some ∧
      (transferRepos env c repos w).2.trace =
        w.trace ++ names.map (fun X => Event.transfer c.sourceGithubOrg X
          { NewName := some X, NewOwner := c.targetGithubOrg, TeamID := [] })) ∧
    (∀ owner repo req,
      Event.transfer owner repo req ∈ (transferRepos env c repos w).2.trace.drop w.trace.length →
        owner = c.sourceGithubOrg ∧ req.NewName = some repo ∧
        req.NewOwner = c.targetGithubOrg ∧ ∃ x ∈ repos, repoName x = some repo) := by
  obtain ⟨k, hk, hnames, htr, _⟩ := transferLoop_trace env c repos [] w
  have hmap := map_eq_map_some_filterMap repoName (repos.take k) hnames
  refine ⟨⟨k, (repos.take k).filterMap repoName, hk, hmap, htr⟩, ?_⟩
  intro owner repo req hmem
  rw [transferRepos, htr, List.drop_left] at hmem
  obtain ⟨X, hX, hev⟩ := List.mem_map.mp hmem
  simp only [transferEvent, Event.transfer.injEq] at hev
  obtain ⟨h1, h2, h3⟩ := hev
  subst h1 h2 h3
  refine ⟨rfl, rfl, rfl, ?_⟩
  obtain ⟨x, hx, hxn⟩ := List.mem_filterMap.mp hX
  exact ⟨x, List.mem_of_mem_take hx, hxn⟩

/-- C6. When `os.Create` and every write succeed, `writeResultsToFile` returns nil and leaves
the file at `path` with content exactly `u1 ++ "\n" ++ ... ++ un ++ "\n"`, whatever it held
before; no other file changes, and the calls are one create, one write per outcome in the
order of the outcomes, and the deferred close. For URLs that hold no newline this content has
exactly `n` newline-terminated lines, line `i` being `ui`. -/
theorem writeResultsToFile_content (env : Env) (path : String) (results : List result)
    (w : World)
    (hcreate : env.createErr path = none)
    (hwrite : ∀ k, k < results.length → env.writeErr (w.writeCalls + k) = none) :
    ∃ w1, writeResultsToFile env path results w = (none, w1) ∧
      w1.files path = some (expectedContent results) ∧
      (∀ p, p ≠ path → w1.files p = w.files p) ∧
      w1.trace = w.trace ++ [Event.create path] ++
        results.map (fun res => Event.writeString path (res.originalRepoURL ++ "\n")) ++
        [Event.close path] ∧
      ((∀ res ∈ results, ∀ ch ∈ res.originalRepoURL.data, ch ≠ '\n') →
        (expectedContent results).data.splitOnP (fun ch => ch == '\n') =
          results.map (fun res => res.originalRepoURL.data) ++ [[]]) := by
  have hloop := writeLoop_ok env path results
    { w with files := fun p => if p = path then some "" else w.files p,
             trace := w.trace ++ [Event.create path] }
    "" (by simp) hwrite
  refine ⟨Close path
    { w with
      files := fun p => if p = path then some ("" ++ expectedContent results) else
        if p = path then some "" else w.files p
      trace := w.trace ++ [Event.create path] ++ writeEvents path results
      writeCalls := w.writeCalls + results.length },
    ?_, ?_, ?_, ?_, expectedContent_lines results⟩
  · simp only [writeResultsToFile, osCreate, hcreate]
    rw [hloop]
  · simp [Close]
  · intro p hp
    simp [Close, hp]
  · simp [Close, writeEvents]

/-- C6 at `threeResults`, written over a file that already has a line. -/
theorem writeResultsToFile_content_witness :
    ∃ w1, writeResultsToFile envTwoPages "migrated-repo-results.txt" threeResults
        worldWithOldFile = (none, w1) ∧
      w1.files "migrated-repo-results.txt" = some (expectedContent threeResults) ∧
      (∀ p, p ≠ "migrated-repo-results.txt" → w1.files p = worldWithOldFile.files p) ∧
      w1.trace = worldWithOldFile.trace ++ [Event.create "migrated-repo-results.txt"] ++
        threeResults.map (fun res =>
          Event.writeString "migrated-repo-results.txt" (res.originalRepoURL ++ "\n")) ++
        [Event.close "migrated-repo-results.txt"] ∧
      ((∀ res ∈ threeResults, ∀ ch ∈ res.originalRepoURL.data, ch ≠ '\n') →
        (expectedContent threeResults).data.splitOnP (fun ch => ch == '\n') =
          threeResults.map (fun res => res.originalRepoURL.data) ++ [[]]) :=
  writeResultsToFile_content envTwoPages "migrated-repo-results.txt" threeResults
    worldWithOldFile (by decide) (by decide)

/-- C7. When the page fetches before the k-th are served (each with `NextPage ≠ 0`, so that the
k-th is asked for) and the k-th returns an error (here `k = pages.length + 1`),
`listArchivedRepos` returns a nil list and a non-nil error whatever archived repositories the
earlier pages held, has issued exactly those `k` list requests, and `main`, for every flag
value, exits through `log.Fatal` without any transfer request and without touching a file. -/
theorem listing_error_aborts (env : Env) (c : config) (w : World)
    (pages : List (List (Option Repository) × Int)) (cause : String) (fuel : Nat)
    (hnext : ∀ p ∈ pages, p.2 ≠ 0)
    (hserved : ∀ i (h : i < pages.length),
      env.listByOrg (w.listCalls + i) = ListReply.ok pages[i].1 pages[i].2)
    (herr : env.listByOrg (w.listCalls + pages.length) = ListReply.err cause)
    (hfuel : pages.length + 1 ≤ fuel) :
    (∃ e w1, listArchivedRepos env c fuel w = some ((none, some e), w1) ∧
      w1.listCalls = w.listCalls + (pages.length + 1) ∧
      w1.trace = w.trace ++ listRequests c.sourceGithubOrg 0 (pages.map Prod.snd)) ∧
    (∀ source target resultsFile, ∃ e w2,
      main env source target resultsFile fuel w = some (Exit.fatal e, w2) ∧
      w2.transferCalls = w.transferCalls ∧ w2.files = w.files ∧
      w2.listCalls ≤ w.listCalls + (pages.length + 1) ∧
      ∀ ev ∈ w2.trace.drop w.trace.length, ev.isTransfer = false) := by
  have key : ∀ conf : config, listArchivedRepos env conf fuel w =
      some ((none, some (Error.listing conf.sourceGithubOrg cause)),
        { w with trace := w.trace ++ listRequests conf.sourceGithubOrg 0 (pages.map Prod.snd),
                 listCalls := w.listCalls + (pages.length + 1) }) := fun conf =>
    listLoop_error env conf pages cause fuel 0 [] w hnext
      (fun i p hi => by
        obtain ⟨hi1, hi2⟩ := List.getElem?_eq_some.mp hi
        rw [← hi2]
        exact hserved i hi1)
      herr hfuel
  refine ⟨⟨_, _, key c, rfl, rfl⟩, ?_⟩
  intro source target resultsFile
  by_cases hflags : source = "" ∨ target = ""
  · exact ⟨Error.flagsMissing, w, by simp [main, hflags], rfl, rfl, by omega, by simp⟩
  · by_cases hauth : Getenv env "GITHUB_AUTH" = ""
    · exact ⟨Error.authNotSet, w, by simp [main, hflags, newConfig_missing env _ _ hauth],
        rfl, rfl, by omega, by simp⟩
    · have hmain : main env source target resultsFile fuel w =
          some (Exit.fatal (Error.listing source cause),
            { w with trace := w.trace ++ listRequests source 0 (pages.map Prod.snd),
                     listCalls := w.listCalls + (pages.length + 1) }) := by
        simp only [main, hflags, if_false, newConfig_ok env _ _ hauth, key]
      refine ⟨_, _, hmain, rfl, rfl, Nat.le_refl _, ?_⟩
      intro ev hev
      simp only [List.drop_left] at hev
      exact (listRequests_not_transfer _ _ _ ev hev).1

/-- C7 at `envSecondPageFails`: the first page holds an archived repository, the second fetch
fails. -/
theorem listing_error_aborts_witness :
    (∃ e w1, listArchivedRepos envSecondPageFails cfg 2 emptyWorld = some ((none, some e), w1) ∧
      w1.listCalls = emptyWorld.listCalls + (1 + 1) ∧
      w1.trace = emptyWorld.trace ++ listRequests cfg.sourceGithubOrg 0 [2]) ∧
    (∀ source target resultsFile, ∃ e w2,
      main envSecondPageFails source target resultsFile 2 emptyWorld =
        some (Exit.fatal e, w2) ∧
      w2.transferCalls = emptyWorld.transferCalls ∧ w2.files = emptyWorld.files ∧
      w2.listCalls ≤ emptyWorld.listCalls + (1 + 1) ∧
      ∀ ev ∈ w2.trace.drop emptyWorld.trace.length, ev.isTransfer = false) :=
  listing_error_aborts envSecondPageFails cfg emptyWorld
    [([some ⟨some "a", some true, some "https://github.com/old/a"⟩], 2)] "502 Bad Gateway" 2
    (by decide) (by decide) (by decide) (by decide)

/-- C8. When `GITHUB_AUTH` is unset or empty, `newConfig` returns a nil config and a non-nil
error for every pair of organisation names, and `main` exits through `log.Fatal` in the very
world it started in: no list request, no transfer request, no results file. When
`GITHUB_AUTH` is non-empty, `newConfig` returns no error and a config whose source and target
organisations are its arguments. -/
theorem missing_credential_is_fatal (env : Env) (source target resultsFile : String)
    (fuel : Nat) (w : World) :
    ((env.environ "GITHUB_AUTH" = none ∨ env.environ "GITHUB_AUTH" = some "") →
      (∃ e, newConfig env source target = (none, some e)) ∧
      ∃ e, main env source target resultsFile fuel w = some (Exit.fatal e, w)) ∧
    (∀ token, env.environ "GITHUB_AUTH" = some token → token ≠ "" →
      ∃ conf, newConfig env source target = (some conf, none) ∧
        conf.sourceGithubOrg = source ∧ conf.targetGithubOrg = target) := by
  constructor
  · intro h
    have hauth : Getenv env "GITHUB_AUTH" = "" := by
      rcases h with h | h <;> simp [Getenv, h]
    refine ⟨⟨_, newConfig_missing env source target hauth⟩, ?_⟩
    by_cases hflags : source = "" ∨ target = ""
    · exact ⟨Error.flagsMissing, by simp [main, hflags]⟩
    · exact ⟨Error.authNotSet, by simp [main, hflags, newConfig_missing env _ _ hauth]⟩
  · intro token h hne
    have hauth : Getenv env "GITHUB_AUTH" ≠ "" := by simp [Getenv, h, hne]
    exact ⟨_, newConfig_ok env source target hauth, rfl, rfl⟩

/-- C8 at `envNoAuth` (variable unset) and at `envTwoPages` (variable set to `token`). -/
theorem missing_credential_is_fatal_witness :
    ((∃ e, newConfig envNoAuth "old" "attic" = (none, some e)) ∧
      ∃ e, main envNoAuth "old" "attic" "migrated-repo-results.txt" 1 emptyWorld =
        some (Exit.fatal e, emptyWorld)) ∧
    (∃ conf, newConfig envTwoPages "old" "attic" = (some conf, none) ∧
      conf.sourceGithubOrg = "old" ∧ conf.targetGithubOrg = "attic") :=
  ⟨(missing_credential_is_fatal envNoAuth "old" "attic" "migrated-repo-results.txt" 1
      emptyWorld).1 (Or.inl rfl),
   (missing_credential_is_fatal envTwoPages "old" "attic" "migrated-repo-results.txt" 1
      emptyWorld).2 "token" (by decide) (by decide)⟩

/-- C9 as stated fails: the one page of an empty organisation is fetched without error and no
repository is archived, yet `os.Create` fails, so `main` exits through `log.Fatal` and there is
no results file. -/
theorem main_zero_archived_create_fails :
    envCreateFails.listByOrg 0 = ListReply.ok [] 0 ∧
    (main envCreateFails "old" "attic" "migrated-repo-results.txt" 1 emptyWorld).map
        (fun x => (x.1, x.2.files "migrated-repo-results.txt", x.2.transferCalls)) =
      some (Exit.fatal (Error.creating "migrated-repo-results.txt"
        "open migrated-repo-results.txt: permission denied"), none, 0) ∧
    ¬ ∃ w3, main envCreateFails "old" "attic" "migrated-repo-results.txt" 1 emptyWorld =
      some (Exit.ok, w3) := by
  refine ⟨by decide, by decide, ?_⟩
  rintro ⟨w3, h⟩
  have hval : (main envCreateFails "old" "attic" "migrated-repo-results.txt" 1 emptyWorld).map
      (fun x => x.1) = some (Exit.fatal (Error.creating "migrated-repo-results.txt"
        "open migrated-repo-results.txt: permission denied")) := by decide
  rw [h] at hval
  simp at hval

/-- C9, amended. Given zero archived repositories (both flags and the token set, every page
fetched successfully, no listed repository with the archived flag set), `main` ends and issues
no transfer request, whether or not the results file can be created; and provided the results
file can be created, `main` creates it with empty content and returns normally (exit status
0), the only calls being the list requests, the create and the close. -/
theorem main_zero_archived (env : Env) (source target resultsFile : String) (fuel : Nat)
    (w : World) (pages : List (List (Option Repository) × Int))
    (hsrc : source ≠ "") (htgt : target ≠ "") (hauth : Getenv env "GITHUB_AUTH" ≠ "")
    (hne : pages ≠ [])
    (hnext : ∀ i (h : i < pages.length), (pages[i].2 = 0 ↔ i + 1 = pages.length))
    (hserved : ∀ i (h : i < pages.length),
      env.listByOrg (w.listCalls + i) = ListReply.ok pages[i].1 pages[i].2)
    (hnone : ∀ pg ∈ pages, ∀ repo ∈ pg.1, GetArchived repo = false)
    (hfuel : pages.length ≤ fuel) :
    (∃ ex w3, main env source target resultsFile fuel w = some (ex, w3) ∧
      w3.transferCalls = w.transferCalls ∧
      ∀ ev ∈ w3.trace.drop w.trace.length, ev.isTransfer = false) ∧
    (env.createErr resultsFile = none →
      ∃ w3, main env source target resultsFile fuel w = some (Exit.ok, w3) ∧
        w3.files resultsFile = some "" ∧
        (∀ p, p ≠ resultsFile → w3.files p = w.files p) ∧
        w3.transferCalls = w.transferCalls ∧
        w3.trace = w.trace ++ listRequests source 0 (pages.dropLast.map Prod.snd) ++
          [Event.create resultsFile, Event.close resultsFile]) := by
  obtain ⟨hpg, hinit, hlen⟩ := pages_split pages hne hnext
  have hlist := listLoop_pages env
    { ghClient := Getenv env "GITHUB_AUTH", sourceGithubOrg := source, targetGithubOrg := target }
    pages.dropLast (pages.getLast hne).1 fuel 0 [] w hinit
    (by
      rw [← hpg]
      intro i p hi
      obtain ⟨hi1, hi2⟩ := List.getElem?_eq_some.mp hi
      rw [← hi2]
      exact hserved i hi1)
    (by omega)
  rw [← hpg, List.nil_append] at hlist
  have hempty : (pages.map Prod.fst).flatten.filter GetArchived = [] := by
    rw [List.filter_eq_nil_iff]
    intro repo hrepo
    obtain ⟨l, hl, hmem⟩ := List.mem_flatten.mp hrepo
    obtain ⟨pg, hpg, rfl⟩ := List.mem_map.mp hl
    simp [hnone pg hpg repo hmem]
  rw [hempty] at hlist
  have hflags : ¬ (source = "" ∨ target = "") := by simp [hsrc, htgt]
  have hok : env.createErr resultsFile = none →
      main env source target resultsFile fuel w = some (Exit.ok, Close resultsFile
        { w with
          files := fun p => if p = resultsFile then some "" else w.files p
          trace := w.trace ++ listRequests source 0 (pages.dropLast.map Prod.snd) ++
            [Event.create resultsFile]
          listCalls := w.listCalls + (pages.dropLast.length + 1) }) := by
    intro hcreate
    simp only [main, hflags, if_false, newConfig_ok env _ _ hauth, listArchivedRepos, hlist,
      sliceOf, transferRepos, transferLoop, writeResultsToFile, osCreate, hcreate, writeLoop]
  have hfail : ∀ cause, env.createErr resultsFile = some cause →
      main env source target resultsFile fuel w =
        some (Exit.fatal (Error.creating resultsFile cause),
          { w with
            trace := w.trace ++ listRequests source 0 (pages.dropLast.map Prod.snd) ++
              [Event.create resultsFile]
            listCalls := w.listCalls + (pages.dropLast.length + 1) }) := by
    intro cause hcreate
    simp only [main, hflags, if_false, newConfig_ok env _ _ hauth, listArchivedRepos, hlist,
      sliceOf, transferRepos, transferLoop, writeResultsToFile, osCreate, hcreate]
  constructor
  · cases hc : env.createErr resultsFile with
    | none =>
      refine ⟨_, _, hok hc, rfl, ?_⟩
      intro ev hev
      simp only [Close, List.append_assoc, List.drop_left, List.mem_append, List.mem_singleton]
        at hev
      rcases hev with h | rfl | rfl
      · exact (listRequests_not_transfer _ _ _ ev h).1
      · rfl
      · rfl
    | some cause =>
      refine ⟨_, _, hfail cause hc, rfl, ?_⟩
      intro ev hev
      simp only [List.append_assoc, List.drop_left, List.mem_append, List.mem_singleton] at hev
      rcases hev with h | rfl
      · exact (listRequests_not_transfer _ _ _ ev h).1
      · rfl
  · intro hcreate
    refine ⟨_, hok hcreate, ?_, ?_, rfl, ?_⟩
    · simp [Close]
    · intro p hp
      simp [Close, hp]
    · simp [Close]

/-- C9, amended, at `envNothingArchived` (two pages, three entries, none archived, the file
can be created) and, for the part that needs no file, at `envCreateFails` (an empty
organisation, the file cannot be created). -/
theorem main_zero_archived_witness :
    ((∃ ex w3, main envNothingArchived "old" "attic" "migrated-repo-results.txt" 2
          worldWithOldFile = some (ex, w3) ∧
        w3.transferCalls = worldWithOldFile.transferCalls ∧
        ∀ ev ∈ w3.trace.drop worldWithOldFile.trace.length, ev.isTransfer = false) ∧
      ∃ w3, main envNothingArchived "old" "attic" "migrated-repo-results.txt" 2
          worldWithOldFile = some (Exit.ok, w3) ∧
        w3.files "migrated-repo-results.txt" = some "" ∧
        (∀ p, p ≠ "migrated-repo-results.txt" → w3.files p = worldWithOldFile.files p) ∧
        w3.transferCalls = worldWithOldFile.transferCalls ∧
        w3.trace = worldWithOldFile.trace ++ listRequests "old" 0
            (([([some ⟨some "b", some false, some "https://github.com/old/b"⟩,
                  some ⟨some "d", none, some "https://github.com/old/d"⟩], 2),
               ([none], 0)] :
              List (List (Option Repository) × Int)).dropLast.map Prod.snd) ++
          [Event.create "migrated-repo-results.txt",
            Event.close "migrated-repo-results.txt"]) ∧
    (∃ ex w3, main envCreateFails "old" "attic" "migrated-repo-results.txt" 1 emptyWorld =
        some (ex, w3) ∧
      w3.transferCalls = emptyWorld.transferCalls ∧
      ∀ ev ∈ w3.trace.drop emptyWorld.trace.length, ev.isTransfer = false) :=
  ⟨⟨(main_zero_archived envNothingArchived "old" "attic" "migrated-repo-results.txt" 2
        worldWithOldFile
        [([some ⟨some "b", some false, some "https://github.com/old/b"⟩,
           some ⟨some "d", none, some "https://github.com/old/d"⟩], 2), ([none], 0)]
        (by decide) (by decide) (by decide) (by decide) (by decide) (by decide) (by decide)
        (by decide)).1,
     (main_zero_archived envNothingArchived "old" "attic" "migrated-repo-results.txt" 2
        worldWithOldFile
        [([some ⟨some "b", some false, some "https://github.com/old/b"⟩,
           some ⟨some "d", none, some "https://github.com/old/d"⟩], 2), ([none], 0)]
        (by decide) (by decide) (by decide) (by decide) (by decide) (by decide) (by decide)
        (by decide)).2 (by decide)⟩,
   (main_zero_archived envCreateFails "old" "attic" "migrated-repo-results.txt" 1 emptyWorld
      [([], 0)]
      (by decide) (by decide) (by decide) (by decide) (by decide) (by decide) (by decide)
      (by decide)).1⟩

/-- C10. In every run of `main` that reaches `transferRepos` (flags and token set, listing
returned without error) and in which `transferRepos` returns a non-nil error, `main` exits
through `log.Fatal` with that error in the world `transferRepos` left: `writeResultsToFile` is
not called, so every file, the one at the results path included, is as it was before the run
(not created, not truncated, not written), whatever outcomes came back with the error. -/
theorem main_transfer_error_loses_outcomes (env : Env) (source target resultsFile : String)
    (fuel : Nat) (w w1 w2 : World) (archivedRepos : Option (List (Option Repository)))
    (out : List result) (e : Error)
    (hsrc : source ≠ "") (htgt : target ≠ "") (hauth : Getenv env "GITHUB_AUTH" ≠ "")
    (hlist : listArchivedRepos env
      { ghClient := Getenv env "GITHUB_AUTH", sourceGithubOrg := source,
        targetGithubOrg := target } fuel w = some ((archivedRepos, none), w1))
    (htransfer : transferRepos env
      { ghClient := Getenv env "GITHUB_AUTH", sourceGithubOrg := source,
        targetGithubOrg := target } (sliceOf archivedRepos) w1 =
        (Outcome.returned (out, some e), w2)) :
    main env source target resultsFile fuel w = some (Exit.fatal e, w2) ∧
      w2.files = w.files ∧ w2.writeCalls = w.writeCalls ∧
      ∀ ev ∈ w2.trace.drop w.trace.length, ev.isFileOp = false := by
  have hflags : ¬ (source = "" ∨ target = "") := by simp [hsrc, htgt]
  obtain ⟨hf1, _, hw1, nexts, ht1⟩ := listLoop_frame env _ fuel 0 [] w _ w1 hlist
  obtain ⟨k, _, _, ht2, _, hf2, _, hw2⟩ := transferLoop_trace env
    { ghClient := Getenv env "GITHUB_AUTH", sourceGithubOrg := source,
      targetGithubOrg := target } (sliceOf archivedRepos) [] w1
  have hw : (transferRepos env
      { ghClient := Getenv env "GITHUB_AUTH", sourceGithubOrg := source,
        targetGithubOrg := target } (sliceOf archivedRepos) w1).2 = w2 := by rw [htransfer]
  rw [transferRepos] at hw
  rw [hw] at ht2 hf2 hw2
  refine ⟨?_, by rw [hf2, hf1], by rw [hw2, hw1], ?_⟩
  · simp only [main, hflags, if_false, newConfig_ok env _ _ hauth, hlist, htransfer]
  · intro ev hev
    rw [ht2, ht1, List.append_assoc, List.drop_left] at hev
    rcases List.mem_append.mp hev with h | h
    · exact (listRequests_not_transfer _ _ _ ev h).2
    · exact transferEvents_not_fileOp _ _ ev h

/-- C10 at `envThirdRefused`: two transfers go through, the third is refused, and the results
file of an earlier run keeps its stale line. -/
theorem main_transfer_error_loses_outcomes_witness :
    main envThirdRefused "old" "attic" "migrated-repo-results.txt" 2 worldWithOldFile =
        some (Exit.fatal (Error.migrating "e" "old" "attic" "403 Forbidden" 403),
          worldAfterRefusal) ∧
      worldAfterRefusal.files = worldWithOldFile.files ∧
      worldAfterRefusal.writeCalls = worldWithOldFile.writeCalls ∧
      ∀ ev ∈ worldAfterRefusal.trace.drop worldWithOldFile.trace.length, ev.isFileOp = false :=
  main_transfer_error_loses_outcomes envThirdRefused "old" "attic" "migrated-repo-results.txt" 2
    worldWithOldFile worldAfterListing worldAfterRefusal (some threeArchived)
    [{ originalRepoURL := "https://github.com/old/a" },
     { originalRepoURL := "https://github.com/old/c" }]
    (Error.migrating "e" "old" "attic" "403 Forbidden" 403)
    (by decide) (by decide) (by decide) rfl rfl

end Migrate
